import Mathlib

/-!
Verification model of the NanoLog runtime core (RuntimeLogger.cc).

The staging buffer is a single-producer / single-consumer ring over a byte
region `storage[0 .. STAGING_BUFFER_SIZE)`.  Pointers into the region are
modelled as natural-number offsets from `storage` (so `storage` itself is
offset `0`, `endOfBuffer` is the capacity `SBS`), and the C++ null pointer
sentinel is modelled by a dedicated result constructor.  The ghost field
`count` tracks the number of committed-but-unconsumed bytes; it is what the
informal word "empty" refers to.  Busy-wait loops are given explicit fuel:
running out of fuel yields a `spinning` result, which represents the real
loop not having returned yet.
-/

namespace NanoLogModel

/-- State of `RuntimeLogger::StagingBuffer`, with positions as offsets from
`storage`.  `count` is a ghost field counting committed-but-unconsumed
bytes (it does not exist in the C++ struct; commit adds to it and consume
subtracts from it, so `count = 0` formalizes "the buffer is empty"). -/
structure StagingBuffer where
  producerPos : Nat
  endOfRecordedSpace : Nat
  minFreeSpace : Nat
  consumerPos : Nat
  numTimesProducerBlocked : Nat
  cyclesProducerBlocked : Nat
  numAllocations : Nat
  count : Nat
  deriving Repr, DecidableEq

/-- Outcome of one execution of the body of the while loop in
`reserveSpaceInternal`:  `brk` models the `break` statement, `ret0` models
the early `return nullptr`, and `cont` falls through to the next loop
condition check. -/
inductive IterOut where
  | brk (st : StagingBuffer)
  | ret0 (st : StagingBuffer)
  | cont (st : StagingBuffer)
  deriving Repr, DecidableEq

/-- The state carried by an `IterOut`. -/
def IterOut.state : IterOut → StagingBuffer
  | .brk st => st
  | .ret0 st => st
  | .cont st => st

/-- One execution of the body of the while loop of
`RuntimeLogger::StagingBuffer::reserveSpaceInternal` (RuntimeLogger.cc,
lines 978-1013).  `SBS` is `NanoLogConfig::STAGING_BUFFER_SIZE`, so the
local `endOfBuffer` is the offset `SBS` and `storage` is the offset `0`.
The body reads `consumerPos` once into `cachedConsumerPos`; within a single
call with no consumer interference this is the value stored in the state. -/
def reserveIterate (SBS nbytes : Nat) (blocking : Bool) (st : StagingBuffer) :
    IterOut :=
  let cachedConsumerPos := st.consumerPos
  if cachedConsumerPos ≤ st.producerPos then
    -- minFreeSpace = endOfBuffer - producerPos
    let st1 := { st with minFreeSpace := SBS - st.producerPos }
    if nbytes < st1.minFreeSpace then
      .brk st1
    else
      -- Not enough space at the end of the buffer; wrap around
      let st2 := { st1 with endOfRecordedSpace := st1.producerPos }
      -- Prevent the roll over if it overlaps the two positions
      let st3 :=
        if cachedConsumerPos ≠ 0 then
          { st2 with producerPos := 0, minFreeSpace := cachedConsumerPos }
        else st2
      if blocking = false ∧ st3.minFreeSpace ≤ nbytes then .ret0 st3 else .cont st3
  else
    let st1 := { st with minFreeSpace := cachedConsumerPos - st.producerPos }
    if blocking = false ∧ st1.minFreeSpace ≤ nbytes then .ret0 st1 else .cont st1

/-- Result of `reserveSpaceInternal`:  `reserved ptr st` is a normal return
of the pointer `producerPos` (an offset), `nullSentinel` is the `nullptr`
return of non-blocking mode, and `spinning` means the fuel ran out while
the loop was still busy-waiting (the real call has not returned). -/
inductive ReserveResult where
  | spinning (st : StagingBuffer)
  | nullSentinel (st : StagingBuffer)
  | reserved (ptr : Nat) (st : StagingBuffer)
  deriving Repr, DecidableEq

/-- The state carried by a `ReserveResult`. -/
def ReserveResult.state : ReserveResult → StagingBuffer
  | .spinning st => st
  | .nullSentinel st => st
  | .reserved _ st => st

/-- The code that runs after the while loop exits (RuntimeLogger.cc, lines
1016-1026): charge the elapsed rdtsc cycles to `cyclesProducerBlocked`,
increment `numTimesProducerBlocked`, and return `producerPos`.  The cycle
count measured by `rdtsc` is abstracted into the parameter `elapsed`. -/
def reserveFinish (elapsed : Nat) (st : StagingBuffer) : ReserveResult :=
  .reserved st.producerPos
    { st with
      cyclesProducerBlocked := st.cyclesProducerBlocked + elapsed,
      numTimesProducerBlocked := st.numTimesProducerBlocked + 1 }

/-- `RuntimeLogger::StagingBuffer::reserveSpaceInternal` (RuntimeLogger.cc,
lines 964-1027), fuel-indexed.  The while condition `minFreeSpace <= nbytes`
is checked before each body execution; when it fails the post-loop code
(`reserveFinish`) runs. -/
def reserveSpaceInternal (SBS nbytes : Nat) (blocking : Bool) (elapsed : Nat) :
    Nat → StagingBuffer → ReserveResult
  | 0, st =>
    if st.minFreeSpace ≤ nbytes then .spinning st else reserveFinish elapsed st
  | fuel + 1, st =>
    if st.minFreeSpace ≤ nbytes then
      match reserveIterate SBS nbytes blocking st with
      | .brk st1 => reserveFinish elapsed st1
      | .ret0 st1 => .nullSentinel st1
      | .cont st1 => reserveSpaceInternal SBS nbytes blocking elapsed fuel st1
    else reserveFinish elapsed st

/-- Result of `peek`: the returned pointer (offset), the value stored into
`*bytesAvailable`, and the possibly updated buffer state. -/
structure PeekResult where
  ptr : Nat
  bytesAvailable : Nat
  st : StagingBuffer
  deriving Repr, DecidableEq

/-- `RuntimeLogger::StagingBuffer::peek` (RuntimeLogger.cc, lines
1041-1059). -/
def peek (st : StagingBuffer) : PeekResult :=
  let cachedProducerPos := st.producerPos
  if cachedProducerPos < st.consumerPos then
    let avail := st.endOfRecordedSpace - st.consumerPos
    if 0 < avail then
      { ptr := st.consumerPos, bytesAvailable := avail, st := st }
    else
      -- Roll over
      let st1 := { st with consumerPos := 0 }
      { ptr := st1.consumerPos,
        bytesAvailable := cachedProducerPos - st1.consumerPos, st := st1 }
  else
    { ptr := st.consumerPos,
      bytesAvailable := cachedProducerPos - st.consumerPos, st := st }

/-- Modelled from the spec: the `peek` algorithm exactly as section 4.1
words it ("Read producerPos once. If producerPos < consumerPos, a wrap
occurred: set bytesAvailable = endOfRecordedSpace - consumerPos.  If that
is greater than zero, return consumerPos; otherwise set consumerPos =
storage and fall through.  Then bytesAvailable = producerPos - consumerPos;
return consumerPos.").  Used only to compare against the source definition
`peek`. -/
def peekPerSpec (st : StagingBuffer) : PeekResult :=
  let cachedProducerPos := st.producerPos
  if cachedProducerPos < st.consumerPos then
    let avail := st.endOfRecordedSpace - st.consumerPos
    if 0 < avail then
      { ptr := st.consumerPos, bytesAvailable := avail, st := st }
    else
      let st1 := { st with consumerPos := 0 }
      { ptr := st1.consumerPos,
        bytesAvailable := cachedProducerPos - st1.consumerPos, st := st1 }
  else
    { ptr := st.consumerPos,
      bytesAvailable := cachedProducerPos - st.consumerPos, st := st }

/-- Modelled from the spec: the commit operation (`finishReservation`) is
declared in the repository header, which is not part of the provided
source.  Per spec section 4.1 it advances `producerPos` by `nbytes`,
increments `numAllocations`, and decrements the local `minFreeSpace`.  The
ghost `count` gains the committed bytes. -/
def commit (nbytes : Nat) (st : StagingBuffer) : StagingBuffer :=
  { st with
    producerPos := st.producerPos + nbytes,
    minFreeSpace := st.minFreeSpace - nbytes,
    numAllocations := st.numAllocations + 1,
    count := st.count + nbytes }

/-- Modelled from the spec: the consume operation is declared in the
repository header, which is not part of the provided source.  Per spec
section 4.1 it advances `consumerPos` by `nbytes`.  The ghost `count`
loses the consumed bytes. -/
def consume (nbytes : Nat) (st : StagingBuffer) : StagingBuffer :=
  { st with
    consumerPos := st.consumerPos + nbytes,
    count := st.count - nbytes }

/-- Number of bytes the consumer may currently consume (what `peek` reports
before any rollover): in a wrapped configuration the bytes up to
`endOfRecordedSpace`, otherwise the bytes up to `producerPos`.  Used as the
validity guard of a `consume` step (the worker only consumes bytes that a
`peek` reported). -/
def availNow (st : StagingBuffer) : Nat :=
  if st.producerPos < st.consumerPos then
    st.endOfRecordedSpace - st.consumerPos
  else
    st.producerPos - st.consumerPos

/-- Modelled from the spec: a freshly created staging buffer is empty with
both positions at `storage` and the whole region free (the constructor
lives in the repository header, which is not part of the provided
source). -/
def initBuffer (SBS : Nat) : StagingBuffer :=
  { producerPos := 0, endOfRecordedSpace := SBS, minFreeSpace := SBS,
    consumerPos := 0, numTimesProducerBlocked := 0, cyclesProducerBlocked := 0,
    numAllocations := 0, count := 0 }

/-- One atomic operation on a staging buffer, as performed by its producer
thread (`reserve`, `commit`) or by the compression worker (`peek`,
`consume`).  A `reserve` step moves to whatever state the call left behind,
including the intermediate state of a still-spinning blocking call.  The
`commit` guard `nbytes < minFreeSpace` reflects that a producer only
commits bytes inside a reservation, and a successful reservation
guarantees strictly more than the requested bytes were free; the `consume`
guard reflects that the worker only consumes bytes reported by `peek`. -/
inductive Step (SBS : Nat) : StagingBuffer → StagingBuffer → Prop
  | reserve (nbytes : Nat) (blocking : Bool) (elapsed fuel : Nat)
      (st : StagingBuffer) :
      Step SBS st (reserveSpaceInternal SBS nbytes blocking elapsed fuel st).state
  | commit (nbytes : Nat) (st : StagingBuffer)
      (h : nbytes < st.minFreeSpace) :
      Step SBS st (commit nbytes st)
  | peek (st : StagingBuffer) : Step SBS st (peek st).st
  | consume (nbytes : Nat) (st : StagingBuffer)
      (h : nbytes ≤ availNow st) :
      Step SBS st (consume nbytes st)

/-- States reachable from a fresh staging buffer by producer/consumer
operations. -/
def Reachable (SBS : Nat) (st : StagingBuffer) : Prop :=
  Relation.ReflTransGen (Step SBS) (initBuffer SBS) st

/-- Structural invariant of a staging buffer.  Either the buffer is in the
unwrapped regime (`consumerPos ≤ producerPos`, live bytes are
`[consumerPos .. producerPos)`), or the producer has wrapped and the
consumer has not yet rolled over (`producerPos < consumerPos ≤
endOfRecordedSpace`, live bytes are `[consumerPos .. endOfRecordedSpace)`
followed by `[0 .. producerPos)`).  In both regimes `minFreeSpace` is a
lower bound on the contiguous free space in front of the producer. -/
def Inv (SBS : Nat) (st : StagingBuffer) : Prop :=
  st.producerPos ≤ SBS ∧
  ((st.consumerPos ≤ st.producerPos ∧
    st.count = st.producerPos - st.consumerPos ∧
    st.minFreeSpace ≤ SBS - st.producerPos) ∨
   (st.producerPos < st.consumerPos ∧
    st.consumerPos ≤ st.endOfRecordedSpace ∧
    st.endOfRecordedSpace ≤ SBS ∧
    st.count = (st.endOfRecordedSpace - st.consumerPos) + st.producerPos ∧
    st.minFreeSpace ≤ st.consumerPos - st.producerPos))

instance (SBS : Nat) (st : StagingBuffer) : Decidable (Inv SBS st) := by
  unfold Inv; infer_instance

/-! ### Compression worker: asynchronous I/O discipline

The worker loop of `RuntimeLogger::compressionThreadMain` (RuntimeLogger.cc,
lines 428-821) is modelled only in the parts that touch the asynchronous
write state: the scan/encode phase is abstracted into the environment value
`encodedBytes` (what `encoder.getEncodedBytes()` returns this iteration),
and the kernel progress of the outstanding `aio_write` into the booleans
`aioInProgress` (first `aio_error` check) and `aioInProgressAfterNap` (the
re-check after the low-work nap).  The ghost counter `inFlight` counts
writes submitted and not yet reaped; `aio_write` emits a `submit` event and
reaping a completion emits a `reap` event. -/

/-- Worker-side state relevant to the asynchronous-write discipline.
`inFlight` is a ghost counter of submitted-but-unreaped writes. -/
structure WorkerState where
  hasOutstandingOperation : Bool
  inFlight : Nat
  deriving Repr, DecidableEq

/-- Environment of one worker loop iteration: what the encoder produced and
how the kernel progressed the outstanding write. -/
structure WorkerEnv where
  encodedBytes : Nat
  outputBufferFull : Bool
  aioInProgress : Bool
  aioInProgressAfterNap : Bool
  deriving Repr, DecidableEq

/-- Asynchronous-I/O events emitted by the worker loop. -/
inductive AioEvent where
  | reap
  | submit
  deriving Repr, DecidableEq

/-- Reaping a completed write (RuntimeLogger.cc, lines 641-656): verify the
return value, count the completion, clear `hasOutstandingOperation`. -/
def reapAioWrite (st : WorkerState) : WorkerState :=
  { st with hasOutstandingOperation := false, inFlight := st.inFlight - 1 }

/-- Submitting a write with `aio_write` and marking it outstanding
(RuntimeLogger.cc, lines 811-814). -/
def submitAioWrite (st : WorkerState) : WorkerState :=
  { st with hasOutstandingOperation := true, inFlight := st.inFlight + 1 }

/-- One iteration of the worker loop restricted to its asynchronous-write
actions (RuntimeLogger.cc, lines 569-821).  With no encoded bytes the
iteration sleeps or handles a sync request and continues (lines 570-589).
Otherwise, an outstanding operation is first drained: if the kernel still
reports `EINPROGRESS` then either the worker blocks in `aio_suspend` until
completion (output buffer full, lines 594-611), or it naps and re-checks,
continuing the outer loop if the write is still pending (lines 612-638).
Once the old write is reaped (lines 641-656), the next write is submitted
(lines 786-814). -/
def workerIteration (env : WorkerEnv) (st : WorkerState) :
    WorkerState × List AioEvent :=
  if env.encodedBytes = 0 then
    (st, [])
  else if st.hasOutstandingOperation then
    if env.aioInProgress then
      if env.outputBufferFull then
        (submitAioWrite (reapAioWrite st), [.reap, .submit])
      else if env.aioInProgressAfterNap then
        (st, [])
      else
        (submitAioWrite (reapAioWrite st), [.reap, .submit])
    else
      (submitAioWrite (reapAioWrite st), [.reap, .submit])
  else
    (submitAioWrite st, [.submit])

/-- Run the worker loop over a list of per-iteration environments,
concatenating the emitted events. -/
def workerRun : List WorkerEnv → WorkerState → WorkerState × List AioEvent
  | [], st => (st, [])
  | env :: envs, st =>
    let r1 := workerIteration env st
    let r2 := workerRun envs r1.1
    (r2.1, r1.2 ++ r2.2)

/-- Replay a sequence of asynchronous-I/O events against an in-flight
count, failing (`none`) if a write is ever submitted while one is already
in flight, or a completion is reaped with no write in flight.  A `some`
result certifies that at most one write was in flight at every point of
the sequence. -/
def applyAioEvents : Nat → List AioEvent → Option Nat
  | n, [] => some n
  | n, .submit :: rest => if n = 0 then applyAioEvents 1 rest else none
  | n, .reap :: rest => if n = 1 then applyAioEvents 0 rest else none

/-- Invariant tying the `hasOutstandingOperation` flag to the ghost
in-flight count. -/
def WInv (st : WorkerState) : Prop :=
  st.inFlight ≤ 1 ∧ (st.hasOutstandingOperation = true ↔ st.inFlight = 1)

instance (st : WorkerState) : Decidable (WInv st) := by
  unfold WInv; infer_instance

/-! ### Direct-I/O padding

Model of the padding block of `compressionThreadMain` (RuntimeLogger.cc,
lines 786-795).  The output buffer `compressingBuffer` is modelled as a
function from byte offsets to byte values. -/

/-- The effect of `memset(buf + start, 0, len)` on a buffer modelled as a
function from offsets to byte values. -/
def memsetZero (buf : Nat → Nat) (start len : Nat) : Nat → Nat :=
  fun i => if start ≤ i ∧ i < start + len then 0 else buf i

/-- Result of the padding block: the byte count handed to `aio_write`, the
accumulated `padBytesWritten` metric, and the buffer contents. -/
structure PadResult where
  bytesToWrite : Nat
  padBytesWritten : Nat
  buffer : Nat → Nat

/-- The direct-I/O padding block (RuntimeLogger.cc, lines 786-795):  when
the file parameters include `O_DIRECT` and the encoded byte count is not a
multiple of 512, the code runs `memset(compressingBuffer, 0, 512 -
bytesOver)` — note the destination is the start of `compressingBuffer` —
then enlarges the write to the next multiple of 512 and accounts the
difference in `padBytesWritten`. -/
def padForDirectWrite (odirect : Bool) (encodedBytes : Nat) (buf : Nat → Nat)
    (padBytesWritten : Nat) : PadResult :=
  if odirect then
    let bytesOver := encodedBytes % 512
    if bytesOver ≠ 0 then
      { bytesToWrite := encodedBytes + (512 - bytesOver),
        padBytesWritten := padBytesWritten + (512 - bytesOver),
        buffer := memsetZero buf 0 (512 - bytesOver) }
    else
      { bytesToWrite := encodedBytes, padBytesWritten := padBytesWritten,
        buffer := buf }
  else
    { bytesToWrite := encodedBytes, padBytesWritten := padBytesWritten,
      buffer := buf }

/-! ### Coordinator: `setLogFile_internal`

Model of `RuntimeLogger::setLogFile_internal` (RuntimeLogger.cc, lines
846-887).  File-system behaviour is abstracted: `pathExists` and
`readWriteOk` are the results of the two `access` calls, and `newFd` is
the value returned by `open` (negative on failure).  Thread and
condition-variable interactions are recorded as an ordered event trace. -/

/-- Coordinator state touched by `setLogFile_internal`. -/
structure CoordState where
  outputFd : Int
  workerRunning : Bool
  compressionThreadShouldExit : Bool
  nextInvocationIndexToBePersisted : Nat
  deriving Repr, DecidableEq

/-- Results of the two `access` checks on the new path. -/
structure FileAccess where
  pathExists : Bool
  readWriteOk : Bool
  deriving Repr, DecidableEq

/-- Ordered actions performed by the success path of
`setLogFile_internal`. -/
inductive HandoffEvent where
  | syncCall
  | setExitFlag
  | notifyWorker
  | joinWorker
  | closeFd (fd : Int)
  | installFd (fd : Int)
  | resetDictionaryIndex
  | clearExitFlag
  | relaunchWorker
  deriving Repr, DecidableEq

/-- `RuntimeLogger::setLogFile_internal` (RuntimeLogger.cc, lines 846-887).
Returns the resulting coordinator state, the thrown error message if any
(`std::ios_base::failure` is modelled as `some message`; a throw leaves the
state exactly as it was), and the ordered trace of handoff actions. -/
def setLogFile_internal (fa : FileAccess) (newFd : Int) (st : CoordState) :
    CoordState × Option String × List HandoffEvent :=
  -- Check if it exists and is readable/writeable
  if fa.pathExists = true ∧ fa.readWriteOk = false then
    (st, some "Unable to read/write from new log file", [])
  -- Try to open the file
  else if newFd < 0 then
    (st, some "Unable to open file new log file", [])
  else
    -- Everything seems okay, stop the background thread and change files
    let st1 := { st with compressionThreadShouldExit := true }
    let joined :=
      if st1.workerRunning then
        ({ st1 with workerRunning := false }, [HandoffEvent.joinWorker])
      else (st1, [])
    let closed :=
      if 0 < joined.1.outputFd then
        (joined.1, [HandoffEvent.closeFd joined.1.outputFd])
      else (joined.1, [])
    let st2 := { closed.1 with outputFd := newFd }
    -- Relaunch thread
    let st3 := { st2 with nextInvocationIndexToBePersisted := 0 }
    let st4 := { st3 with compressionThreadShouldExit := false }
    let st5 := { st4 with workerRunning := true }
    (st5, none,
      [HandoffEvent.syncCall, HandoffEvent.setExitFlag,
       HandoffEvent.notifyWorker] ++
      joined.2 ++ closed.2 ++
      [HandoffEvent.installFd newFd, HandoffEvent.resetDictionaryIndex,
       HandoffEvent.clearExitFlag, HandoffEvent.relaunchWorker])

/-! ### Basic lemmas about the reserve loop -/

/-- The body of the reserve loop never touches `consumerPos`, the ghost
`count`, or any of the statistics fields. -/
theorem reserveIterate_preserves (SBS nbytes : Nat) (blocking : Bool)
    (st : StagingBuffer) :
    (reserveIterate SBS nbytes blocking st).state.consumerPos = st.consumerPos ∧
    (reserveIterate SBS nbytes blocking st).state.numTimesProducerBlocked =
      st.numTimesProducerBlocked ∧
    (reserveIterate SBS nbytes blocking st).state.cyclesProducerBlocked =
      st.cyclesProducerBlocked ∧
    (reserveIterate SBS nbytes blocking st).state.count = st.count ∧
    (reserveIterate SBS nbytes blocking st).state.numAllocations =
      st.numAllocations := by
  unfold reserveIterate
  simp only []
  split_ifs <;> simp [IterOut.state]

/-- When the cached `consumerPos` is at `storage`, one execution of the
reserve loop body leaves `producerPos` where it was: the wrap is refused. -/
theorem reserveIterate_no_wrap_at_storage (SBS nbytes : Nat) (blocking : Bool)
    (st : StagingBuffer) (hc : st.consumerPos = 0) :
    (reserveIterate SBS nbytes blocking st).state.producerPos =
      st.producerPos := by
  unfold reserveIterate
  simp only [hc]
  split_ifs <;> simp_all [IterOut.state]

/-- A whole call of `reserveSpaceInternal` never moves `producerPos` while
`consumerPos` sits at `storage` (and it never moves `consumerPos` at
all). -/
theorem reserveSpaceInternal_no_wrap_at_storage (SBS nbytes : Nat)
    (blocking : Bool) (elapsed : Nat) :
    ∀ (fuel : Nat) (st : StagingBuffer), st.consumerPos = 0 →
      (reserveSpaceInternal SBS nbytes blocking elapsed fuel st).state.producerPos
        = st.producerPos := by
  intro fuel
  induction fuel with
  | zero =>
    intro st hc
    unfold reserveSpaceInternal reserveFinish
    split_ifs <;> simp [ReserveResult.state]
  | succ f ih =>
    intro st hc
    unfold reserveSpaceInternal
    split_ifs with hloop
    · have hpres := reserveIterate_preserves SBS nbytes blocking st
      have hnw := reserveIterate_no_wrap_at_storage SBS nbytes blocking st hc
      rcases hit : reserveIterate SBS nbytes blocking st with st1 | st1 | st1 <;>
        rw [hit] at hpres hnw <;> simp only [IterOut.state] at hpres hnw
      · simp [reserveFinish, ReserveResult.state, hnw]
      · simp [ReserveResult.state, hnw]
      · rw [ih st1 (by rw [hpres.1, hc]), hnw]
    · simp [reserveFinish, ReserveResult.state]

/-- C10:  every return of a non-null pointer from `reserveSpaceInternal`
bumps `numTimesProducerBlocked` by exactly one and charges the elapsed
cycles to `cyclesProducerBlocked`, regardless of whether the loop ever had
to wait, and the returned pointer is the final `producerPos`. -/
theorem reserveSpaceInternal_nonnull_counts_slow_path (SBS nbytes : Nat)
    (blocking : Bool) (elapsed fuel : Nat) (st st' : StagingBuffer) (ptr : Nat)
    (h : reserveSpaceInternal SBS nbytes blocking elapsed fuel st =
      .reserved ptr st') :
    st'.numTimesProducerBlocked = st.numTimesProducerBlocked + 1 ∧
    st'.cyclesProducerBlocked = st.cyclesProducerBlocked + elapsed ∧
    ptr = st'.producerPos := by
  induction fuel generalizing st with
  | zero =>
    unfold reserveSpaceInternal reserveFinish at h
    split_ifs at h <;> cases h <;> exact ⟨rfl, rfl, rfl⟩
  | succ f ih =>
    unfold reserveSpaceInternal at h
    by_cases hloop : st.minFreeSpace ≤ nbytes
    · rw [if_pos hloop] at h
      have hpres := reserveIterate_preserves SBS nbytes blocking st
      rcases hit : reserveIterate SBS nbytes blocking st with st1 | st1 | st1 <;>
        rw [hit] at hpres h <;> simp only [IterOut.state] at hpres
      · unfold reserveFinish at h
        cases h
        refine ⟨?_, ?_, rfl⟩ <;> simp [hpres.2.1, hpres.2.2.1]
      · cases h
      · obtain ⟨h1, h2, h3⟩ := ih st1 h
        exact ⟨by rw [h1, hpres.2.1], by rw [h2, hpres.2.2.1], h3⟩
    · rw [if_neg hloop] at h
      unfold reserveFinish at h
      cases h
      exact ⟨rfl, rfl, rfl⟩

/-- C4 (amended):  when no region of the ring can satisfy the request —
neither the tail `[producerPos .. SBS)`, nor the wrapped head `[0 ..
consumerPos)`, nor the middle gap `[producerPos .. consumerPos)` — a
non-blocking call returns the null sentinel, and it does so without
touching `numTimesProducerBlocked` or `cyclesProducerBlocked` (those are
only updated on the non-null return path). -/
theorem reserveSpaceInternal_nonblocking_null_no_count (SBS nbytes : Nat)
    (elapsed fuel : Nat) (st : StagingBuffer)
    (hmfs : st.minFreeSpace ≤ nbytes)
    (hend : st.consumerPos ≤ st.producerPos →
      SBS - st.producerPos ≤ nbytes ∧ st.consumerPos ≤ nbytes)
    (hmid : st.producerPos < st.consumerPos →
      st.consumerPos - st.producerPos ≤ nbytes)
    (hfuel : 1 ≤ fuel) :
    ∃ st', reserveSpaceInternal SBS nbytes false elapsed fuel st =
        .nullSentinel st' ∧
      st'.numTimesProducerBlocked = st.numTimesProducerBlocked ∧
      st'.cyclesProducerBlocked = st.cyclesProducerBlocked := by
  obtain ⟨f, rfl⟩ : ∃ f, fuel = f + 1 := ⟨fuel - 1, by omega⟩
  have hpres := reserveIterate_preserves SBS nbytes false st
  have hret : ∃ st1, reserveIterate SBS nbytes false st = .ret0 st1 := by
    by_cases hcp : st.consumerPos ≤ st.producerPos
    · obtain ⟨ha, hb⟩ := hend hcp
      unfold reserveIterate
      simp only []
      rw [if_pos hcp, if_neg (by omega)]
      by_cases hc0 : st.consumerPos ≠ 0
      · rw [if_pos hc0, if_pos ⟨trivial, show st.consumerPos ≤ nbytes from hb⟩]
        exact ⟨_, rfl⟩
      · rw [if_neg hc0,
            if_pos ⟨trivial, show SBS - st.producerPos ≤ nbytes from ha⟩]
        exact ⟨_, rfl⟩
    · have hlt : st.producerPos < st.consumerPos := by omega
      unfold reserveIterate
      simp only []
      rw [if_neg hcp,
          if_pos ⟨trivial,
            show st.consumerPos - st.producerPos ≤ nbytes from hmid hlt⟩]
      exact ⟨_, rfl⟩
  obtain ⟨st1, hit⟩ := hret
  rw [hit] at hpres
  simp only [IterOut.state] at hpres
  refine ⟨st1, ?_, hpres.2.1, hpres.2.2.1⟩
  unfold reserveSpaceInternal
  rw [if_pos hmfs, hit]

/-- Requesting the full capacity from an empty buffer parked at `storage`
keeps the reserve loop spinning forever in blocking mode: every iteration
recomputes `minFreeSpace = SBS`, refuses both the break (`SBS < SBS` fails)
and the wrap (`consumerPos == storage`), and loops again. -/
theorem reserveSpaceInternal_full_request_spins (SBS elapsed : Nat) :
    ∀ (fuel : Nat) (st : StagingBuffer), st.producerPos = 0 →
      st.consumerPos = 0 → st.minFreeSpace ≤ SBS →
      ∃ st', reserveSpaceInternal SBS SBS true elapsed fuel st =
        .spinning st' := by
  intro fuel
  induction fuel with
  | zero =>
    intro st hp hc hm
    exact ⟨st, by unfold reserveSpaceInternal; rw [if_pos hm]⟩
  | succ f ih =>
    intro st hp hc hm
    have hit : reserveIterate SBS SBS true st =
        .cont { st with minFreeSpace := SBS - st.producerPos,
                        endOfRecordedSpace := st.producerPos } := by
      unfold reserveIterate
      simp only []
      rw [if_pos (show st.consumerPos ≤ st.producerPos by omega),
          if_neg (show ¬ SBS < SBS - st.producerPos by omega),
          if_neg (show ¬ st.consumerPos ≠ 0 from fun hne => hne hc),
          if_neg (show ¬ (true = false ∧ SBS - st.producerPos ≤ SBS) from
            fun hand => Bool.noConfusion hand.1)]
    obtain ⟨st', h'⟩ := ih
      { st with minFreeSpace := SBS - st.producerPos,
                endOfRecordedSpace := st.producerPos }
      hp hc (by simp)
    refine ⟨st', ?_⟩
    unfold reserveSpaceInternal
    rw [if_pos hm, hit]
    exact h'

/-- C2:  on an empty buffer parked at `storage`, a request for
`STAGING_BUFFER_SIZE - 1` bytes returns the pointer `producerPos` without
wrapping (neither `producerPos` nor `endOfRecordedSpace` moves); a request
for the full `STAGING_BUFFER_SIZE` spins forever in blocking mode (the
loop condition can never become false while the consumer does not advance)
and returns the null sentinel in non-blocking mode. -/
theorem reserveSpaceInternal_boundary_requests (SBS elapsed : Nat)
    (st : StagingBuffer) (hS : 0 < SBS) (hp : st.producerPos = 0)
    (hc : st.consumerPos = 0) (hm : st.minFreeSpace ≤ SBS) :
    (∀ (blocking : Bool) (fuel : Nat), 1 ≤ fuel →
      ∃ st', reserveSpaceInternal SBS (SBS - 1) blocking elapsed fuel st =
          .reserved st.producerPos st' ∧
        st'.producerPos = st.producerPos ∧
        st'.endOfRecordedSpace = st.endOfRecordedSpace) ∧
    (∀ fuel : Nat,
      ∃ st', reserveSpaceInternal SBS SBS true elapsed fuel st =
        .spinning st') ∧
    (∀ fuel : Nat, 1 ≤ fuel →
      ∃ st', reserveSpaceInternal SBS SBS false elapsed fuel st =
        .nullSentinel st') := by
  refine ⟨?_, ?_, ?_⟩
  · intro blocking fuel hfuel
    obtain ⟨f, rfl⟩ : ∃ f, fuel = f + 1 := ⟨fuel - 1, by omega⟩
    by_cases hloop : st.minFreeSpace ≤ SBS - 1
    · have hit : reserveIterate SBS (SBS - 1) blocking st =
          .brk { st with minFreeSpace := SBS - st.producerPos } := by
        unfold reserveIterate
        simp only []
        rw [if_pos (show st.consumerPos ≤ st.producerPos by omega),
            if_pos (show SBS - 1 < SBS - st.producerPos by omega)]
      have heq : reserveSpaceInternal SBS (SBS - 1) blocking elapsed (f + 1) st =
          .reserved st.producerPos
            { st with minFreeSpace := SBS - st.producerPos,
                      cyclesProducerBlocked := st.cyclesProducerBlocked + elapsed,
                      numTimesProducerBlocked := st.numTimesProducerBlocked + 1 } := by
        unfold reserveSpaceInternal
        rw [if_pos hloop, hit]
        rfl
      exact ⟨_, heq, rfl, rfl⟩
    · have heq : reserveSpaceInternal SBS (SBS - 1) blocking elapsed (f + 1) st =
          .reserved st.producerPos
            { st with cyclesProducerBlocked := st.cyclesProducerBlocked + elapsed,
                      numTimesProducerBlocked := st.numTimesProducerBlocked + 1 } := by
        unfold reserveSpaceInternal
        rw [if_neg hloop]
        rfl
      exact ⟨_, heq, rfl, rfl⟩
  · intro fuel
    exact reserveSpaceInternal_full_request_spins SBS elapsed fuel st hp hc hm
  · intro fuel hfuel
    obtain ⟨f, rfl⟩ : ∃ f, fuel = f + 1 := ⟨fuel - 1, by omega⟩
    have hit : reserveIterate SBS SBS false st =
        .ret0 { st with minFreeSpace := SBS - st.producerPos,
                        endOfRecordedSpace := st.producerPos } := by
      unfold reserveIterate
      simp only []
      rw [if_pos (show st.consumerPos ≤ st.producerPos by omega),
          if_neg (show ¬ SBS < SBS - st.producerPos by omega),
          if_neg (show ¬ st.consumerPos ≠ 0 from fun hne => hne hc),
          if_pos ⟨trivial, show SBS - st.producerPos ≤ SBS by omega⟩]
    have heq : reserveSpaceInternal SBS SBS false elapsed (f + 1) st =
        .nullSentinel { st with minFreeSpace := SBS - st.producerPos,
                                endOfRecordedSpace := st.producerPos } := by
      unfold reserveSpaceInternal
      rw [if_pos hm, hit]
    exact ⟨_, heq⟩

/-- One execution of the reserve loop body preserves the structural
invariant: in particular a wrap happens only with `consumerPos ≠ storage`,
which lands the buffer in the wrapped regime with `producerPos <
consumerPos`. -/
theorem reserveIterate_preserves_inv (SBS nbytes : Nat) (blocking : Bool)
    (st : StagingBuffer) (h : Inv SBS st) :
    Inv SBS (reserveIterate SBS nbytes blocking st).state := by
  obtain ⟨hp, hcase⟩ := h
  unfold reserveIterate
  simp only []
  split_ifs with h1 h2 h3 h4 h5 h6 <;>
    simp only [IterOut.state, Inv] <;>
    rcases hcase with ⟨u1, u2, u3⟩ | ⟨w1, w2, w3, w4, w5⟩ <;>
    first
      | exact absurd u1 h1
      | exact absurd w1 (by omega)
      | exact ⟨by omega, Or.inl ⟨by omega, by omega, by omega⟩⟩
      | exact ⟨by omega,
          Or.inr ⟨by omega, by omega, by omega, by omega, by omega⟩⟩

/-- A whole `reserveSpaceInternal` call preserves the structural
invariant, whatever its outcome. -/
theorem reserveSpaceInternal_preserves_inv (SBS nbytes : Nat)
    (blocking : Bool) (elapsed : Nat) :
    ∀ (fuel : Nat) (st : StagingBuffer), Inv SBS st →
      Inv SBS (reserveSpaceInternal SBS nbytes blocking elapsed fuel st).state := by
  intro fuel
  induction fuel with
  | zero =>
    intro st h
    unfold reserveSpaceInternal reserveFinish
    split_ifs <;> simp only [ReserveResult.state] <;>
      obtain ⟨hp, hcase⟩ := h <;>
      exact ⟨hp, by simpa using hcase⟩
  | succ f ih =>
    intro st h
    unfold reserveSpaceInternal
    split_ifs with hloop
    · have hit := reserveIterate_preserves_inv SBS nbytes blocking st h
      rcases he : reserveIterate SBS nbytes blocking st with st1 | st1 | st1 <;>
        rw [he] at hit <;> simp only [IterOut.state] at hit
      · simp only [ReserveResult.state, reserveFinish]
        obtain ⟨hp, hcase⟩ := hit
        exact ⟨hp, by simpa using hcase⟩
      · exact hit
      · exact ih st1 hit
    · simp only [ReserveResult.state, reserveFinish]
      obtain ⟨hp, hcase⟩ := h
      exact ⟨hp, by simpa using hcase⟩

/-- Committing bytes inside a valid reservation preserves the structural
invariant. -/
theorem commit_preserves_inv (SBS nbytes : Nat) (st : StagingBuffer)
    (h : Inv SBS st) (hn : nbytes < st.minFreeSpace) :
    Inv SBS (commit nbytes st) := by
  obtain ⟨hp, hcase⟩ := h
  simp only [commit, Inv]
  rcases hcase with ⟨u1, u2, u3⟩ | ⟨w1, w2, w3, w4, w5⟩
  · exact ⟨by omega, Or.inl ⟨by omega, by omega, by omega⟩⟩
  · exact ⟨by omega,
      Or.inr ⟨by omega, by omega, by omega, by omega, by omega⟩⟩

/-- Consuming at most the bytes reported by `peek` preserves the structural
invariant. -/
theorem consume_preserves_inv (SBS nbytes : Nat) (st : StagingBuffer)
    (h : Inv SBS st) (hn : nbytes ≤ availNow st) :
    Inv SBS (consume nbytes st) := by
  obtain ⟨hp, hcase⟩ := h
  unfold availNow at hn
  simp only [consume, Inv]
  rcases hcase with ⟨u1, u2, u3⟩ | ⟨w1, w2, w3, w4, w5⟩
  · rw [if_neg (by omega)] at hn
    exact ⟨by omega, Or.inl ⟨by omega, by omega, by omega⟩⟩
  · rw [if_pos w1] at hn
    exact ⟨by omega,
      Or.inr ⟨by omega, by omega, by omega, by omega, by omega⟩⟩

/-- A `peek` (including its roll over of `consumerPos`) preserves the
structural invariant. -/
theorem peek_preserves_inv (SBS : Nat) (st : StagingBuffer)
    (h : Inv SBS st) : Inv SBS (peek st).st := by
  obtain ⟨hp, hcase⟩ := h
  unfold peek
  simp only []
  rcases hcase with ⟨u1, u2, u3⟩ | ⟨w1, w2, w3, w4, w5⟩
  · rw [if_neg (by omega)]
    exact ⟨hp, Or.inl ⟨u1, u2, u3⟩⟩
  · rw [if_pos w1]
    split_ifs with havail
    · exact ⟨hp, Or.inr ⟨w1, w2, w3, w4, w5⟩⟩
    · simp only [Inv]
      exact ⟨by omega, Or.inl ⟨by omega, by omega, by omega⟩⟩

/-- A fresh buffer satisfies the structural invariant. -/
theorem initBuffer_inv (SBS : Nat) : Inv SBS (initBuffer SBS) :=
  ⟨Nat.zero_le SBS,
   Or.inl ⟨le_refl 0, rfl, le_of_eq (Nat.sub_zero SBS).symm⟩⟩

/-- Every producer/consumer step preserves the structural invariant. -/
theorem step_preserves_inv (SBS : Nat) (st st' : StagingBuffer)
    (hstep : Step SBS st st') (h : Inv SBS st) : Inv SBS st' := by
  cases hstep with
  | reserve nbytes blocking elapsed fuel st =>
    exact reserveSpaceInternal_preserves_inv SBS nbytes blocking elapsed fuel st h
  | commit nbytes st hn => exact commit_preserves_inv SBS nbytes st h hn
  | peek st => exact peek_preserves_inv SBS st h
  | consume nbytes st hn => exact consume_preserves_inv SBS nbytes st h hn

/-- Every reachable buffer state satisfies the structural invariant. -/
theorem reachable_inv (SBS : Nat) (st : StagingBuffer)
    (h : Reachable SBS st) : Inv SBS st := by
  induction h with
  | refl => exact initBuffer_inv SBS
  | tail hsteps hstep ih => exact step_preserves_inv SBS _ _ hstep ih

/-- C1 (amended):  on every reachable buffer state, position equality
implies emptiness, and an empty buffer either has equal positions or is in
the transient post-wrap drained state (`producerPos = storage`,
`consumerPos = endOfRecordedSpace > storage`), from which the very next
`peek` reports zero bytes and rolls `consumerPos` back to `storage`,
restoring equality; moreover `reserveSpaceInternal` never moves
`producerPos` while the cached `consumerPos` equals `storage` (no wrap can
make the positions collide). -/
theorem position_equality_characterizes_empty (SBS : Nat)
    (st : StagingBuffer) (h : Reachable SBS st) :
    (st.producerPos = st.consumerPos → st.count = 0) ∧
    (st.count = 0 → st.producerPos = st.consumerPos ∨
      (st.producerPos = 0 ∧ 0 < st.consumerPos ∧
       st.consumerPos = st.endOfRecordedSpace ∧
       (peek st).bytesAvailable = 0 ∧
       (peek st).st.producerPos = (peek st).st.consumerPos)) ∧
    (∀ (nbytes : Nat) (blocking : Bool) (elapsed fuel : Nat),
      st.consumerPos = 0 →
      (reserveSpaceInternal SBS nbytes blocking elapsed fuel st).state.producerPos
        = st.producerPos) := by
  obtain ⟨hp, hcase⟩ := reachable_inv SBS st h
  refine ⟨?_, ?_, ?_⟩
  · intro hpc
    rcases hcase with ⟨u1, u2, u3⟩ | ⟨w1, w2, w3, w4, w5⟩ <;> omega
  · intro hcount
    rcases hcase with ⟨u1, u2, u3⟩ | ⟨w1, w2, w3, w4, w5⟩
    · left; omega
    · right
      have hp0 : st.producerPos = 0 := by omega
      have hce : st.consumerPos = st.endOfRecordedSpace := by omega
      have hpk : peek st =
          { ptr := 0, bytesAvailable := st.producerPos - 0,
            st := { st with consumerPos := 0 } } := by
        unfold peek
        simp only []
        rw [if_pos w1, if_neg (by omega)]
      refine ⟨hp0, by omega, hce, ?_, ?_⟩ <;> rw [hpk] <;> simp [hp0]
  · intro nbytes blocking elapsed fuel hc0
    exact reserveSpaceInternal_no_wrap_at_storage SBS nbytes blocking elapsed
      fuel st hc0

/-- C3:  the source `peek` coincides with the algorithm as worded in the
spec, and on a wrapped buffer the region it reports never extends to or
past `endOfRecordedSpace`. -/
theorem peek_matches_spec_and_respects_recorded_space (st : StagingBuffer)
    (hw : st.producerPos < st.consumerPos)
    (he : st.consumerPos ≤ st.endOfRecordedSpace) :
    (∀ s : StagingBuffer, peek s = peekPerSpec s) ∧
    (peek st).ptr + (peek st).bytesAvailable ≤ st.endOfRecordedSpace := by
  refine ⟨fun s => rfl, ?_⟩
  unfold peek
  simp only []
  rw [if_pos hw]
  split_ifs with havail
  · show st.consumerPos + (st.endOfRecordedSpace - st.consumerPos) ≤
      st.endOfRecordedSpace
    omega
  · show (0 : Nat) + (st.producerPos - 0) ≤ st.endOfRecordedSpace
    omega

/-- Splitting an event sequence splits its replay. -/
theorem applyAioEvents_append (evs1 evs2 : List AioEvent) :
    ∀ n, applyAioEvents n (evs1 ++ evs2) =
      (applyAioEvents n evs1).bind fun m => applyAioEvents m evs2 := by
  induction evs1 with
  | nil => intro n; simp [applyAioEvents]
  | cons e rest ih =>
    intro n
    cases e <;> simp only [List.cons_append, applyAioEvents] <;>
      split_ifs <;> simp [ih]

/-- One worker iteration keeps the asynchronous-write discipline: its event
sequence replays without ever having two writes in flight, and the flag
invariant is maintained. -/
theorem workerIteration_aio_discipline (env : WorkerEnv) (st : WorkerState)
    (h : WInv st) :
    applyAioEvents st.inFlight (workerIteration env st).2 =
      some (workerIteration env st).1.inFlight ∧
    WInv (workerIteration env st).1 := by
  obtain ⟨h1, h2⟩ := h
  unfold workerIteration
  split_ifs with he ho hip hf hnap
  · exact ⟨rfl, h1, h2⟩
  · have hin : st.inFlight = 1 := h2.mp ho
    refine ⟨by simp [applyAioEvents, reapAioWrite, submitAioWrite, hin], ?_, ?_⟩ <;>
      simp [reapAioWrite, submitAioWrite, hin]
  · exact ⟨rfl, h1, h2⟩
  · have hin : st.inFlight = 1 := h2.mp ho
    refine ⟨by simp [applyAioEvents, reapAioWrite, submitAioWrite, hin], ?_, ?_⟩ <;>
      simp [reapAioWrite, submitAioWrite, hin]
  · have hin : st.inFlight = 1 := h2.mp ho
    refine ⟨by simp [applyAioEvents, reapAioWrite, submitAioWrite, hin], ?_, ?_⟩ <;>
      simp [reapAioWrite, submitAioWrite, hin]
  · have hin : st.inFlight = 0 := by
      have : st.inFlight ≠ 1 := fun he1 => ho (h2.mpr he1)
      omega
    refine ⟨by simp [applyAioEvents, submitAioWrite, hin], ?_, ?_⟩ <;>
      simp [submitAioWrite, hin]

/-- C6:  over any run of the worker loop that starts with the flag/ghost
invariant, the emitted asynchronous-I/O events replay successfully — a
write is submitted only when none is in flight (`aio_write` happens only
with `hasOutstandingOperation` false or just cleared by reaping the
previous completion), so at most one write is in flight at every point —
and the invariant tying `hasOutstandingOperation` to the in-flight count
still holds at the end. -/
theorem worker_at_most_one_aio_in_flight (envs : List WorkerEnv)
    (st : WorkerState) (h : WInv st) :
    applyAioEvents st.inFlight (workerRun envs st).2 =
      some (workerRun envs st).1.inFlight ∧
    WInv (workerRun envs st).1 := by
  induction envs generalizing st with
  | nil => exact ⟨rfl, h⟩
  | cons e es ih =>
    obtain ⟨hi1, hi2⟩ := workerIteration_aio_discipline e st h
    obtain ⟨hr1, hr2⟩ := ih (workerIteration e st).1 hi2
    refine ⟨?_, hr2⟩
    show applyAioEvents st.inFlight
      ((workerIteration e st).2 ++ (workerRun es (workerIteration e st).1).2) = _
    rw [applyAioEvents_append, hi1]
    simpa using hr1

/-- C8:  when the new path exists but is not readable/writable, or the
open fails, `setLogFile_internal` reports an error and leaves the
coordinator exactly as it was: same `outputFd`, worker untouched (no
handoff events at all), and `nextInvocationIndexToBePersisted` keeps
its value. -/
theorem setLogFile_failure_leaves_state_unchanged (fa : FileAccess)
    (newFd : Int) (st : CoordState)
    (h : (fa.pathExists = true ∧ fa.readWriteOk = false) ∨ newFd < 0) :
    (setLogFile_internal fa newFd st).1 = st ∧
    (setLogFile_internal fa newFd st).2.1.isSome = true ∧
    (setLogFile_internal fa newFd st).2.2 = [] := by
  unfold setLogFile_internal
  rcases h with ⟨h1, h2⟩ | h1
  · rw [if_pos ⟨h1, h2⟩]
    exact ⟨rfl, rfl, rfl⟩
  · split_ifs with hacc
    · exact ⟨rfl, rfl, rfl⟩
    · exact ⟨rfl, rfl, rfl⟩

/-- C9:  a successful `setLogFile_internal` performs the handoff actions in
exactly the order sync, set exit flag, wake worker, join, close old fd,
install new fd, reset the dictionary index to zero, clear the exit flag,
relaunch the worker — and ends with the new fd installed, the index reset,
the exit flag clear and the worker running. -/
theorem setLogFile_success_handoff_order (fa : FileAccess) (newFd : Int)
    (st : CoordState)
    (hok : ¬ (fa.pathExists = true ∧ fa.readWriteOk = false))
    (hfd : 0 ≤ newFd) (hw : st.workerRunning = true)
    (hofd : 0 < st.outputFd) :
    (setLogFile_internal fa newFd st).2.2 =
      [HandoffEvent.syncCall, HandoffEvent.setExitFlag,
       HandoffEvent.notifyWorker, HandoffEvent.joinWorker,
       HandoffEvent.closeFd st.outputFd, HandoffEvent.installFd newFd,
       HandoffEvent.resetDictionaryIndex, HandoffEvent.clearExitFlag,
       HandoffEvent.relaunchWorker] ∧
    (setLogFile_internal fa newFd st).2.1 = none ∧
    (setLogFile_internal fa newFd st).1 =
      { outputFd := newFd, workerRunning := true,
        compressionThreadShouldExit := false,
        nextInvocationIndexToBePersisted := 0 } := by
  unfold setLogFile_internal
  rw [if_neg hok, if_neg (by omega)]
  simp [hw, hofd]

/-- C7 (evidence at the failing input):  with direct I/O and 513 encoded
bytes, the submitted write is 1024 bytes and `padBytesWritten` grows by
511 as specified, but the `memset` zeroes the first 511 bytes of
`compressingBuffer` — destroying encoded data — and leaves the pad region
after byte 513 untouched (bytes 600 and 1023 keep their old value 1
instead of being zero-filled). -/
theorem padForDirectWrite_zeroes_head_not_pad_region :
    (padForDirectWrite true 513 (fun _ => 1) 0).bytesToWrite = 1024 ∧
    (padForDirectWrite true 513 (fun _ => 1) 0).padBytesWritten = 511 ∧
    (padForDirectWrite true 513 (fun _ => 1) 0).buffer 0 = 0 ∧
    (padForDirectWrite true 513 (fun _ => 1) 0).buffer 510 = 0 ∧
    (padForDirectWrite true 513 (fun _ => 1) 0).buffer 600 = 1 ∧
    (padForDirectWrite true 513 (fun _ => 1) 0).buffer 1023 = 1 := by
  refine ⟨rfl, rfl, ?_, ?_, ?_, ?_⟩ <;> decide

/-- C1 counterexample:  a reachable state that is empty (`count = 0`) yet
has `producerPos ≠ consumerPos`.  From a fresh buffer of capacity 8:
reserve 4 and commit 4; consume 2; a non-blocking reserve of 5 wraps the
producer to `storage` (setting `endOfRecordedSpace = 4`) before returning
the null sentinel; consuming the remaining 2 bytes then drains the buffer
while `consumerPos = endOfRecordedSpace = 4` and `producerPos = 0`. -/
theorem empty_buffer_with_unequal_positions_reachable :
    Reachable 8 ⟨0, 4, 2, 4, 1, 0, 1, 0⟩ ∧
    (⟨0, 4, 2, 4, 1, 0, 1, 0⟩ : StagingBuffer).count = 0 ∧
    (⟨0, 4, 2, 4, 1, 0, 1, 0⟩ : StagingBuffer).producerPos ≠
      (⟨0, 4, 2, 4, 1, 0, 1, 0⟩ : StagingBuffer).consumerPos := by
  refine ⟨?_, rfl, by decide⟩
  have s1 : Step 8 (initBuffer 8) ⟨0, 8, 8, 0, 1, 0, 0, 0⟩ := by
    have h := @Step.reserve 8 4 true 0 1 (initBuffer 8)
    have e : (reserveSpaceInternal 8 4 true 0 1 (initBuffer 8)).state =
        ⟨0, 8, 8, 0, 1, 0, 0, 0⟩ := by decide
    rwa [e] at h
  have s2 : Step 8 (⟨0, 8, 8, 0, 1, 0, 0, 0⟩ : StagingBuffer)
      ⟨4, 8, 4, 0, 1, 0, 1, 4⟩ := by
    have h := @Step.commit 8 4 ⟨0, 8, 8, 0, 1, 0, 0, 0⟩ (by decide)
    have e : commit 4 (⟨0, 8, 8, 0, 1, 0, 0, 0⟩ : StagingBuffer) =
        ⟨4, 8, 4, 0, 1, 0, 1, 4⟩ := by decide
    rwa [e] at h
  have s3 : Step 8 (⟨4, 8, 4, 0, 1, 0, 1, 4⟩ : StagingBuffer)
      ⟨4, 8, 4, 2, 1, 0, 1, 2⟩ := by
    have h := @Step.consume 8 2 ⟨4, 8, 4, 0, 1, 0, 1, 4⟩ (by decide)
    have e : consume 2 (⟨4, 8, 4, 0, 1, 0, 1, 4⟩ : StagingBuffer) =
        ⟨4, 8, 4, 2, 1, 0, 1, 2⟩ := by decide
    rwa [e] at h
  have s4 : Step 8 (⟨4, 8, 4, 2, 1, 0, 1, 2⟩ : StagingBuffer)
      ⟨0, 4, 2, 2, 1, 0, 1, 2⟩ := by
    have h := @Step.reserve 8 5 false 0 1 ⟨4, 8, 4, 2, 1, 0, 1, 2⟩
    have e : (reserveSpaceInternal 8 5 false 0 1
        ⟨4, 8, 4, 2, 1, 0, 1, 2⟩).state = ⟨0, 4, 2, 2, 1, 0, 1, 2⟩ := by decide
    rwa [e] at h
  have s5 : Step 8 (⟨0, 4, 2, 2, 1, 0, 1, 2⟩ : StagingBuffer)
      ⟨0, 4, 2, 4, 1, 0, 1, 0⟩ := by
    have h := @Step.consume 8 2 ⟨0, 4, 2, 2, 1, 0, 1, 2⟩ (by decide)
    have e : consume 2 (⟨0, 4, 2, 2, 1, 0, 1, 2⟩ : StagingBuffer) =
        ⟨0, 4, 2, 4, 1, 0, 1, 0⟩ := by decide
    rwa [e] at h
  exact ((((Relation.ReflTransGen.refl.tail s1).tail s2).tail s3).tail s4).tail
    s5

/-- C1 witness for the amended statement, at the fresh buffer. -/
theorem position_equality_characterizes_empty_witness :
    Reachable 4 (initBuffer 4) ∧
    ((initBuffer 4).producerPos = (initBuffer 4).consumerPos →
      (initBuffer 4).count = 0) :=
  ⟨Relation.ReflTransGen.refl,
   (position_equality_characterizes_empty 4 (initBuffer 4)
      Relation.ReflTransGen.refl).1⟩

/-- C2 witness: capacity 4, fresh buffer; a request of 3 bytes succeeds
without wrapping. -/
theorem reserveSpaceInternal_boundary_requests_witness :
    ((0 : Nat) < 4 ∧ (initBuffer 4).producerPos = 0 ∧
      (initBuffer 4).consumerPos = 0 ∧ (initBuffer 4).minFreeSpace ≤ 4) ∧
    ∃ st', reserveSpaceInternal 4 (4 - 1) true 0 1 (initBuffer 4) =
        .reserved (initBuffer 4).producerPos st' ∧
      st'.producerPos = (initBuffer 4).producerPos ∧
      st'.endOfRecordedSpace = (initBuffer 4).endOfRecordedSpace :=
  ⟨⟨by decide, rfl, rfl, by decide⟩,
   (reserveSpaceInternal_boundary_requests 4 0 (initBuffer 4) (by decide) rfl
      rfl (by decide)).1 true 1 (by decide)⟩

/-- C3 witness: a wrapped buffer with `producerPos = 1 < consumerPos = 3 ≤
endOfRecordedSpace = 4`. -/
theorem peek_matches_spec_witness :
    ((⟨1, 4, 0, 3, 0, 0, 0, 0⟩ : StagingBuffer).producerPos <
       (⟨1, 4, 0, 3, 0, 0, 0, 0⟩ : StagingBuffer).consumerPos ∧
     (⟨1, 4, 0, 3, 0, 0, 0, 0⟩ : StagingBuffer).consumerPos ≤
       (⟨1, 4, 0, 3, 0, 0, 0, 0⟩ : StagingBuffer).endOfRecordedSpace) ∧
    (peek ⟨1, 4, 0, 3, 0, 0, 0, 0⟩).ptr +
        (peek ⟨1, 4, 0, 3, 0, 0, 0, 0⟩).bytesAvailable ≤
      (⟨1, 4, 0, 3, 0, 0, 0, 0⟩ : StagingBuffer).endOfRecordedSpace :=
  ⟨⟨by decide, by decide⟩,
   (peek_matches_spec_and_respects_recorded_space ⟨1, 4, 0, 3, 0, 0, 0, 0⟩
      (by decide) (by decide)).2⟩

/-- C4 counterexample:  a non-blocking reserve that returns the null
sentinel leaves `numTimesProducerBlocked` unchanged — it is not
incremented by that call, contrary to the claim. -/
theorem nonblocking_null_does_not_increment_counter :
    reserveSpaceInternal 8 6 false 0 1 ⟨7, 8, 1, 2, 0, 0, 0, 0⟩ =
      .nullSentinel ⟨0, 7, 2, 2, 0, 0, 0, 0⟩ ∧
    (⟨0, 7, 2, 2, 0, 0, 0, 0⟩ : StagingBuffer).numTimesProducerBlocked =
      (⟨7, 8, 1, 2, 0, 0, 0, 0⟩ : StagingBuffer).numTimesProducerBlocked ∧
    ¬ (⟨0, 7, 2, 2, 0, 0, 0, 0⟩ : StagingBuffer).numTimesProducerBlocked =
      (⟨7, 8, 1, 2, 0, 0, 0, 0⟩ : StagingBuffer).numTimesProducerBlocked +
        1 := by
  decide

/-- C4 witness for the amended statement: ring of capacity 8, producer at
7, consumer at 2; a non-blocking request of 6 bytes cannot be satisfied
anywhere. -/
theorem reserveSpaceInternal_nonblocking_null_no_count_witness :
    ((⟨7, 8, 1, 2, 0, 0, 0, 0⟩ : StagingBuffer).minFreeSpace ≤ 6) ∧
    ∃ st', reserveSpaceInternal 8 6 false 0 1 ⟨7, 8, 1, 2, 0, 0, 0, 0⟩ =
        .nullSentinel st' ∧
      st'.numTimesProducerBlocked =
        (⟨7, 8, 1, 2, 0, 0, 0, 0⟩ : StagingBuffer).numTimesProducerBlocked ∧
      st'.cyclesProducerBlocked =
        (⟨7, 8, 1, 2, 0, 0, 0, 0⟩ : StagingBuffer).cyclesProducerBlocked :=
  ⟨by decide,
   reserveSpaceInternal_nonblocking_null_no_count 8 6 0 1
     ⟨7, 8, 1, 2, 0, 0, 0, 0⟩ (by decide) (by decide) (by decide) (by decide)⟩

/-- C6 witness: one iteration with pending work submits exactly one write
starting from the idle state. -/
theorem worker_at_most_one_aio_in_flight_witness :
    WInv ⟨false, 0⟩ ∧
    (applyAioEvents (⟨false, 0⟩ : WorkerState).inFlight
        (workerRun [⟨10, false, true, false⟩] ⟨false, 0⟩).2 =
      some (workerRun [⟨10, false, true, false⟩] ⟨false, 0⟩).1.inFlight ∧
     WInv (workerRun [⟨10, false, true, false⟩] ⟨false, 0⟩).1) :=
  ⟨by decide,
   worker_at_most_one_aio_in_flight [⟨10, false, true, false⟩] ⟨false, 0⟩
     (by decide)⟩

/-- C8 witness: a path that exists without read/write permission leaves a
coordinator with fd 3 and dictionary index 7 untouched. -/
theorem setLogFile_failure_witness :
    ((FileAccess.pathExists ⟨true, false⟩ = true ∧
        FileAccess.readWriteOk ⟨true, false⟩ = false) ∨ (5 : Int) < 0) ∧
    ((setLogFile_internal ⟨true, false⟩ 5 ⟨3, true, false, 7⟩).1 =
        ⟨3, true, false, 7⟩ ∧
      (setLogFile_internal ⟨true, false⟩ 5 ⟨3, true, false, 7⟩).2.1.isSome =
        true ∧
      (setLogFile_internal ⟨true, false⟩ 5 ⟨3, true, false, 7⟩).2.2 = []) :=
  ⟨Or.inl ⟨rfl, rfl⟩,
   setLogFile_failure_leaves_state_unchanged ⟨true, false⟩ 5
     ⟨3, true, false, 7⟩ (Or.inl ⟨rfl, rfl⟩)⟩

/-- C9 witness: successful handoff from fd 3 to fd 5 with the worker
running. -/
theorem setLogFile_success_handoff_order_witness :
    ((0 : Int) ≤ 5 ∧
      (⟨3, true, false, 7⟩ : CoordState).workerRunning = true ∧
      (0 : Int) < (⟨3, true, false, 7⟩ : CoordState).outputFd) ∧
    ((setLogFile_internal ⟨true, true⟩ 5 ⟨3, true, false, 7⟩).2.2 =
      [HandoffEvent.syncCall, HandoffEvent.setExitFlag,
       HandoffEvent.notifyWorker, HandoffEvent.joinWorker,
       HandoffEvent.closeFd (⟨3, true, false, 7⟩ : CoordState).outputFd,
       HandoffEvent.installFd 5, HandoffEvent.resetDictionaryIndex,
       HandoffEvent.clearExitFlag, HandoffEvent.relaunchWorker] ∧
     (setLogFile_internal ⟨true, true⟩ 5 ⟨3, true, false, 7⟩).2.1 = none ∧
     (setLogFile_internal ⟨true, true⟩ 5 ⟨3, true, false, 7⟩).1 =
       { outputFd := 5, workerRunning := true,
         compressionThreadShouldExit := false,
         nextInvocationIndexToBePersisted := 0 }) :=
  ⟨⟨by decide, rfl, by decide⟩,
   setLogFile_success_handoff_order ⟨true, true⟩ 5 ⟨3, true, false, 7⟩
     (by decide) (by decide) rfl (by decide)⟩

/-- C10 witness: a call that finds space on its very first check (fast
exit, no waiting at all) still increments `numTimesProducerBlocked` and
still adds the elapsed cycles. -/
theorem reserveSpaceInternal_nonnull_counts_slow_path_witness :
    (reserveSpaceInternal 8 1 true 7 1 (initBuffer 8) =
      .reserved 0 ⟨0, 8, 8, 0, 1, 7, 0, 0⟩) ∧
    ((⟨0, 8, 8, 0, 1, 7, 0, 0⟩ : StagingBuffer).numTimesProducerBlocked =
        (initBuffer 8).numTimesProducerBlocked + 1 ∧
      (⟨0, 8, 8, 0, 1, 7, 0, 0⟩ : StagingBuffer).cyclesProducerBlocked =
        (initBuffer 8).cyclesProducerBlocked + 7 ∧
      (0 : Nat) =
        (⟨0, 8, 8, 0, 1, 7, 0, 0⟩ : StagingBuffer).producerPos) :=
  ⟨by decide,
   reserveSpaceInternal_nonnull_counts_slow_path 8 1 true 7 1 (initBuffer 8)
     ⟨0, 8, 8, 0, 1, 7, 0, 0⟩ 0 (by decide)⟩

end NanoLogModel
